import Mathlib

/-!
Shallow embedding of the location-search core of the weather application:

* `src/services/geocodingService.ts` — `GeocodingService.geocodeLocation`,
  `GeocodingService.validateLocationInput`, `GeocodingService.getSuggestions`;
* `src/hooks/useLocationSearch.ts` — the search-state controller
  (`handleSetSearchQuery`, `updateDebouncedQuery`, `manualSearch`);
* `src/components/LocationSearch.tsx` — `toggleSavedLocation`.

Modelling conventions:
* The HTTP transport is abstracted by a `FetchOutcome` value passed to the
  functions that call `fetch`: either a thrown transport exception or a
  response with a numeric status and a parsed JSON body.  `Response.ok` is
  the fetch-standard predicate (status in 200..299).
* Upstream numeric values (`lat`, `lon`) are carried as their raw string
  renderings: no claim depends on floating-point arithmetic, only on the
  string concatenation used for identifiers, so `parseFloat` is modelled
  as carrying the raw string through.
* JavaScript falsiness of an optional string (`undefined` or `""`) is
  modelled by `truthyStr` on `Option String`.
* The regular expressions of `validateLocationInput` are modelled by
  executable character-list matchers; `\w` is `[A-Za-z0-9_]` and `\s` is
  modelled by ASCII whitespace (`Char.isWhitespace`).
* `String.prototype.trim` and `String.prototype.toLowerCase` are modelled
  by the structurally recursive `jsTrim` and `jsToLower` (ASCII whitespace
  and `Char.toLower`), so that every definition evaluates in the kernel.
-/

/-- `String.prototype.trim`: drop leading and trailing whitespace. -/
def jsTrim (s : String) : String :=
  String.mk (((s.toList.dropWhile Char.isWhitespace).reverse.dropWhile Char.isWhitespace).reverse)

/-- `String.prototype.toLowerCase` (ASCII case folding). -/
def jsToLower (s : String) : String :=
  String.mk (s.toList.map Char.toLower)

/-- The `code` field of `GeocodingError` in `geocodingService.ts`. -/
inductive ErrorCode where
  | INVALID_INPUT
  | NO_RESULTS
  | API_ERROR
  | NETWORK_ERROR
deriving DecidableEq, Repr

/-- `GeocodingError`: a tagged failure value carrying a message. -/
structure GeocodingError where
  message : String
  code : ErrorCode
deriving DecidableEq, Repr

/-- One upstream JSON record `{name, region, country, lat, lon}`.
`region` is `none` when the field is absent; `lat`/`lon` are the raw
(unparsed) values as they would be rendered into a template literal. -/
structure RawRecord where
  name : String
  region : Option String
  country : String
  lat : String
  lon : String
deriving DecidableEq, Repr

/-- `GeocodingResult` in `geocodingService.ts` (the Place candidate).
`formatted_address` is always set by the mapper, so it is a plain field. -/
structure GeocodingResult where
  id : String
  name : String
  region : String
  country : String
  lat : String
  lon : String
  formatted_address : String
deriving DecidableEq, Repr

/-- Parsed body of the search response: either not a JSON array, or an
array of records. -/
inductive ResponseBody where
  | notArray
  | arr (records : List RawRecord)
deriving DecidableEq, Repr

/-- Outcome of the single `fetch` performed by `geocodeLocation`:
`exn` when an awaited transport step throws (a non-`GeocodingError`
exception), otherwise a response with its HTTP status and parsed body. -/
inductive FetchOutcome where
  | exn
  | resp (status : Nat) (body : ResponseBody)
deriving DecidableEq, Repr

/-- `Response.ok` of the fetch standard: status in the range 200..299. -/
def respOk (status : Nat) : Bool :=
  decide (200 ≤ status) && decide (status ≤ 299)

/-- JavaScript truthiness of an optional string: `undefined` and `""` are
falsy, every other string is truthy. -/
def truthyStr : Option String → Bool
  | none => false
  | some s => !(s == "")

/-- The per-record mapper inside `geocodeLocation`:
`id` is the template literal of the raw `lat`/`lon` values, `region`
defaults to `""` (`result.region || ''`), and `formatted_address` inserts
the region segment only when the raw region is truthy. -/
def mapRecord (r : RawRecord) : GeocodingResult :=
  { id := r.lat ++ "-" ++ r.lon
    name := r.name
    region := r.region.getD ""
    country := r.country
    lat := r.lat
    lon := r.lon
    formatted_address :=
      r.name ++ ", " ++ (if truthyStr r.region then r.region.getD "" ++ ", " else "") ++ r.country }

/-- The `NO_RESULTS` message built from the cleaned input. -/
def noResultsMessage (cleanedInput : String) : String :=
  "No locations found for \"" ++ cleanedInput ++ "\". Try a different search term."

/-- `GeocodingService.geocodeLocation`: validates the input length, then
maps the transport outcome to a result list or a tagged error.  Thrown
`GeocodingError`s are re-thrown unchanged by the `catch` block; only a
non-`GeocodingError` exception becomes `NETWORK_ERROR`. -/
def geocodeLocation (locationString : String) (outcome : FetchOutcome) :
    Except GeocodingError (List GeocodingResult) :=
  if locationString = "" ∨ (jsTrim locationString).length < 2 then
    .error ⟨"Location must be at least 2 characters long", .INVALID_INPUT⟩
  else
    let cleanedInput := jsTrim locationString
    match outcome with
    | .exn =>
        .error ⟨"Network error. Please check your connection and try again.", .NETWORK_ERROR⟩
    | .resp status body =>
        if respOk status then
          match body with
          | .notArray => .error ⟨noResultsMessage cleanedInput, .NO_RESULTS⟩
          | .arr records =>
              if records = [] then
                .error ⟨noResultsMessage cleanedInput, .NO_RESULTS⟩
              else
                .ok (records.map mapRecord)
        else
          if status = 401 then
            .error ⟨"Invalid API key. Please check your configuration.", .API_ERROR⟩
          else if status = 429 then
            .error ⟨"Too many requests. Please try again later.", .API_ERROR⟩
          else
            .error ⟨"Failed to fetch location data", .API_ERROR⟩

/-- `GeocodingService.getSuggestions`: returns `[]` for input shorter than
3 characters, otherwise delegates to `geocodeLocation` and swallows every
failure. -/
def getSuggestions (partialInput : String) (outcome : FetchOutcome) : List GeocodingResult :=
  if partialInput.length < 3 then
    []
  else
    match geocodeLocation partialInput outcome with
    | .ok results => results
    | .error _ => []

/-- Whether the pattern (first argument) occurs at the head of the text. -/
def startsWithChars : List Char → List Char → Bool
  | [], _ => true
  | _ :: _, [] => false
  | p :: ps, c :: cs => p == c && startsWithChars ps cs

/-- Whether the pattern (first argument) occurs anywhere in the text. -/
def hasSubChars (pat : List Char) : List Char → Bool
  | [] => startsWithChars pat []
  | c :: cs => startsWithChars pat (c :: cs) || hasSubChars pat cs

/-- `\w` of a JavaScript regex: `[A-Za-z0-9_]`. -/
def wordChar (c : Char) : Bool :=
  c.isAlphanum || c == '_'

/-- After `on\w+` and at least one whitespace: skip `\s*`, require `=`. -/
def afterSpaces : List Char → Bool
  | [] => false
  | c :: cs => if c.isWhitespace then afterSpaces cs else c == '='

/-- After `on` and at least one word character: consume the rest of `\w+`,
then `\s*`, then require `=`. -/
def afterWordChars : List Char → Bool
  | [] => false
  | c :: cs =>
      if wordChar c then afterWordChars cs
      else if c.isWhitespace then afterSpaces cs
      else c == '='

/-- A match of `on\w+\s*=` starting at the head of the (lowercased) text. -/
def onHandlerAt : List Char → Bool
  | 'o' :: 'n' :: c :: cs => wordChar c && afterWordChars cs
  | _ => false

/-- A match of `on\w+\s*=` anywhere in the (lowercased) text. -/
def hasOnHandler : List Char → Bool
  | [] => false
  | c :: cs => onHandlerAt (c :: cs) || hasOnHandler cs

/-- The `dangerousPatterns.some(pattern => pattern.test(trimmed))` check:
case-insensitive occurrence of `<script`, `javascript:`, `on\w+\s*=` or
`data:` in the trimmed input. -/
def dangerousInput (trimmed : String) : Bool :=
  let low := (jsToLower trimmed).toList
  hasSubChars "<script".toList low ||
  hasSubChars "javascript:".toList low ||
  hasOnHandler low ||
  hasSubChars "data:".toList low

/-- The `{ isValid, error? }` record returned by `validateLocationInput`. -/
structure ValidationResult where
  isValid : Bool
  error : Option String
deriving DecidableEq, Repr

/-- `GeocodingService.validateLocationInput`: a pure, total validator. -/
def validateLocationInput (input : String) : ValidationResult :=
  if input = "" then
    ⟨false, some "Location is required"⟩
  else
    let trimmed := jsTrim input
    if trimmed.length < 2 then
      ⟨false, some "Location must be at least 2 characters long"⟩
    else if trimmed.length > 100 then
      ⟨false, some "Location must be less than 100 characters"⟩
    else if dangerousInput trimmed then
      ⟨false, some "Invalid characters in location"⟩
    else
      ⟨true, none⟩

deriving instance DecidableEq for Except

/-- The options of `useLocationSearch` with their defaults
(`debounceMs = 300`, `minSearchLength = 3`, `maxResults = 10`). -/
structure SearchConfig where
  debounceMs : Nat
  minSearchLength : Nat
  maxResults : Nat
deriving DecidableEq, Repr

/-- The default configuration of the hook. -/
def defaultConfig : SearchConfig := ⟨300, 3, 10⟩

/-- One scheduled `setTimeout` callback: its handle, its absolute expiry
time, and the query it will commit via `setDebouncedQuery`. -/
structure Timer where
  id : Nat
  expiry : Nat
  query : String
deriving DecidableEq, Repr

/-- The state held by one `useLocationSearch` instance: the three `useState`
slots, the set of scheduled-and-not-yet-fired-or-cancelled timeouts of the
environment, the `debounceRef` handle, and a counter for fresh timeout
handles.  `liveTimers` is a list so that the model does not assume by
construction that at most one timer is live. -/
structure HookState where
  searchQuery : String
  searchError : Option GeocodingError
  debouncedQuery : String
  liveTimers : List Timer
  debounceRef : Option Nat
  nextId : Nat
deriving DecidableEq, Repr

/-- The initial state of the hook. -/
def initState : HookState :=
  ⟨"", none, "", [], none, 0⟩

/-- `clearTimeout(debounceRef.current)`: a no-op when the ref is unset or
its timer already fired; otherwise the referenced timer dies. -/
def clearRefTimer (st : HookState) : HookState :=
  match st.debounceRef with
  | none => st
  | some i => { st with liveTimers := st.liveTimers.filter (fun t => t.id != i) }

/-- `updateDebouncedQuery`: cancel the ref'd timeout, then schedule a fresh
one that will commit `query` after `debounceMs`, storing its handle in the
ref. -/
def updateDebouncedQuery (cfg : SearchConfig) (now : Nat) (query : String) (st : HookState) :
    HookState :=
  let st1 := clearRefTimer st
  { st1 with
      liveTimers := st1.liveTimers ++ [⟨st1.nextId, now + cfg.debounceMs, query⟩]
      debounceRef := some st1.nextId
      nextId := st1.nextId + 1 }

/-- `handleSetSearchQuery`: store the raw text, clear the error, and either
schedule a debounced commit (length at least `minSearchLength`) or clear
the debounced query.  Note that the short branch does not touch the
scheduled timers. -/
def handleSetSearchQuery (cfg : SearchConfig) (now : Nat) (query : String) (st : HookState) :
    HookState :=
  let st1 := { st with searchQuery := query, searchError := none }
  if cfg.minSearchLength ≤ query.length then
    updateDebouncedQuery cfg now query st1
  else
    { st1 with debouncedQuery := "" }

/-- A fired timeout commits its query via `setDebouncedQuery`.  When the
committed value differs from the current one, the `queryKey` of the
suggestion query changes and — if the new value reaches `minSearchLength`,
so the query is enabled — a debounced lookup fires; the fired lookups are
accumulated in the second component. -/
def commitQuery (cfg : SearchConfig) (q : String) (acc : HookState × List String) :
    HookState × List String :=
  if q = acc.1.debouncedQuery then
    acc
  else if cfg.minSearchLength ≤ q.length then
    ({ acc.1 with debouncedQuery := q }, acc.2 ++ [q])
  else
    ({ acc.1 with debouncedQuery := q }, acc.2)

/-- Advance the clock to `now`: every timer whose expiry has been reached
fires (in list order) and disappears from the live set. -/
def fireDue (cfg : SearchConfig) (now : Nat) (acc : HookState × List String) :
    HookState × List String :=
  let due := acc.1.liveTimers.filter (fun t => decide (t.expiry ≤ now))
  let live := acc.1.liveTimers.filter (fun t => decide (now < t.expiry))
  due.foldl (fun a t => commitQuery cfg t.query a) ({ acc.1 with liveTimers := live }, acc.2)

/-- One keystroke event at an absolute time: first the timers that are due
by then fire, then `handleSetSearchQuery` runs. -/
def stepEvent (cfg : SearchConfig) (acc : HookState × List String) (e : Nat × String) :
    HookState × List String :=
  let acc1 := fireDue cfg e.1 acc
  (handleSetSearchQuery cfg e.1 e.2 acc1.1, acc1.2)

/-- Run a time-ordered list of keystroke events from the initial state. -/
def runTrace (cfg : SearchConfig) (events : List (Nat × String)) : HookState × List String :=
  events.foldl (stepEvent cfg) (initState, [])

/-- After the last event, let every still-scheduled timer fire. -/
def flushTimers (cfg : SearchConfig) (acc : HookState × List String) :
    HookState × List String :=
  acc.1.liveTimers.foldl (fun a t => commitQuery cfg t.query a)
    ({ acc.1 with liveTimers := [] }, acc.2)

/-- The debounced lookups fired by a trace of keystrokes, once the burst is
over and all timers have fired. -/
def firedLookups (cfg : SearchConfig) (events : List (Nat × String)) : List String :=
  (flushTimers cfg (runTrace cfg events)).2

/-- A burst after an event at `tPrev`: each following event comes strictly
later but before the debounce delay of its predecessor has elapsed, and
each query is long enough to schedule a lookup. -/
def burstFrom (cfg : SearchConfig) (tPrev : Nat) : List (Nat × String) → Bool
  | [] => true
  | e :: rest =>
      decide (tPrev < e.1) && decide (e.1 < tPrev + cfg.debounceMs) &&
      decide (cfg.minSearchLength ≤ e.2.length) && burstFrom cfg e.1 rest

/-- The text of the last event of the burst (`q` when the burst has no
further event). -/
def lastQuery (q : String) : List (Nat × String) → String
  | [] => q
  | e :: rest => lastQuery e.2 rest

/-- `manualSearch` of `useLocationSearch`: clear the error slot, validate
synchronously, and on valid input call `geocodeLocation` directly,
truncating with `slice(0, maxResults)`; every failure is recorded in the
error slot and re-thrown to the caller. -/
def manualSearch (cfg : SearchConfig) (query : String) (outcome : FetchOutcome)
    (st : HookState) : HookState × Except GeocodingError (List GeocodingResult) :=
  let st1 := { st with searchError := none }
  let validation := validateLocationInput query
  if validation.isValid = false then
    let e : GeocodingError := ⟨validation.error.getD "Invalid input", .INVALID_INPUT⟩
    ({ st1 with searchError := some e }, .error e)
  else
    match geocodeLocation query outcome with
    | .ok results => (st1, .ok (results.take cfg.maxResults))
    | .error e => ({ st1 with searchError := some e }, .error e)

/-- The `Location` records held in the saved-locations list of
`LocationSearch.tsx`.  As for `GeocodingResult`, the numeric coordinates
are carried as raw strings. -/
structure Location where
  id : String
  name : String
  region : String
  country : String
  lat : String
  lon : String
deriving DecidableEq, Repr

/-- `toggleSavedLocation` of `LocationSearch.tsx`: remove every entry with
the toggled id when one is present, otherwise append the place at the
end. -/
def toggleSavedLocation (location : Location) (savedLocations : List Location) :
    List Location :=
  if savedLocations.any (fun saved => saved.id == location.id) then
    savedLocations.filter (fun saved => saved.id != location.id)
  else
    savedLocations ++ [location]

/-- A 101-character input whose trimmed form is the valid query "aa". -/
def paddedInput : String :=
  "aa" ++ String.mk (List.replicate 99 ' ')

/-- An upstream record whose `region` field is present but empty. -/
def emptyRegionRecord : RawRecord :=
  ⟨"Paris", some "", "France", "48.87", "2.33"⟩

/-- A concrete saved place used in counterexamples. -/
def locA : Location :=
  ⟨"48.87-2.33", "Paris", "Ile-de-France", "France", "48.87", "2.33"⟩

/-- A second concrete saved place with a different identifier. -/
def locB : Location :=
  ⟨"51.52--0.11", "London", "City of London", "UK", "51.52", "-0.11"⟩

/-- The single-timer invariant of the controller: either no timeout is
scheduled, or exactly one is and the `debounceRef` holds its handle. -/
def timerInv (st : HookState) : Prop :=
  st.liveTimers = [] ∨ ∃ t : Timer, st.liveTimers = [t] ∧ st.debounceRef = some t.id

/-- The input-length guard of `geocodeLocation` fails for every input whose
trimmed length is at least 2. -/
theorem geocode_guard_neg (input : String) (h : 2 ≤ (jsTrim input).length) :
    ¬ (input = "" ∨ (jsTrim input).length < 2) := by
  rintro (rfl | h2)
  · exact absurd h (by decide)
  · omega

/-- C9: for every input whose trimmed length is < 2 (including the empty
string), `geocodeLocation` fails with `INVALID_INPUT`, and the result does
not depend on the transport outcome (no network call is consulted). -/
theorem geocode_short_input_invalid (input : String) (h : (jsTrim input).length < 2)
    (outcome : FetchOutcome) :
    geocodeLocation input outcome =
      .error ⟨"Location must be at least 2 characters long", ErrorCode.INVALID_INPUT⟩ := by
  unfold geocodeLocation
  rw [if_pos (Or.inr h)]

/-- Witness for `geocode_short_input_invalid` at the empty string. -/
theorem geocode_short_input_invalid_witness :
    geocodeLocation "" FetchOutcome.exn =
      .error ⟨"Location must be at least 2 characters long", ErrorCode.INVALID_INPUT⟩ :=
  geocode_short_input_invalid "" (by decide) FetchOutcome.exn

/-- C3: for valid-length input, the transport outcomes map onto the failure
taxonomy exactly: 401 gives `API_ERROR` with the invalid-credentials
message, 429 gives `API_ERROR` with the rate-limited message, any other
non-success status gives the generic `API_ERROR`, and a thrown transport
exception gives `NETWORK_ERROR`. -/
theorem geocode_error_taxonomy (input : String) (h : 2 ≤ (jsTrim input).length) :
    (∀ body, geocodeLocation input (.resp 401 body) =
        .error ⟨"Invalid API key. Please check your configuration.", ErrorCode.API_ERROR⟩) ∧
    (∀ body, geocodeLocation input (.resp 429 body) =
        .error ⟨"Too many requests. Please try again later.", ErrorCode.API_ERROR⟩) ∧
    (∀ status body, respOk status = false → status ≠ 401 → status ≠ 429 →
        geocodeLocation input (.resp status body) =
          .error ⟨"Failed to fetch location data", ErrorCode.API_ERROR⟩) ∧
    geocodeLocation input .exn =
      .error ⟨"Network error. Please check your connection and try again.",
        ErrorCode.NETWORK_ERROR⟩ := by
  have hg := geocode_guard_neg input h
  refine ⟨fun body => ?_, fun body => ?_, fun status body h1 h2 h3 => ?_, ?_⟩ <;>
      unfold geocodeLocation
  · rw [if_neg hg]
    rfl
  · rw [if_neg hg]
    rfl
  · rw [if_neg hg]
    show (if respOk status = true then _ else _) = _
    rw [h1]
    simp only [Bool.false_eq_true, if_false]
    rw [if_neg h2, if_neg h3]
  · rw [if_neg hg]

/-- Witness for `geocode_error_taxonomy` at the query "ab". -/
theorem geocode_error_taxonomy_witness :
    geocodeLocation "ab" (.resp 401 .notArray) =
      .error ⟨"Invalid API key. Please check your configuration.", ErrorCode.API_ERROR⟩ :=
  (geocode_error_taxonomy "ab" (by decide)).1 ResponseBody.notArray

/-- C4: `getSuggestions` returns `[]` for input shorter than 3 characters
whatever the transport outcome (no network call is consulted); for longer
input it delegates to `geocodeLocation`, swallowing every failure into `[]`
and forwarding every success — it never fails outward. -/
theorem getSuggestions_spec (partialInput : String) :
    (partialInput.length < 3 → ∀ outcome, getSuggestions partialInput outcome = []) ∧
    (3 ≤ partialInput.length → ∀ outcome,
        (∀ e, geocodeLocation partialInput outcome = .error e →
            getSuggestions partialInput outcome = []) ∧
        (∀ results, geocodeLocation partialInput outcome = .ok results →
            getSuggestions partialInput outcome = results)) := by
  constructor
  · intro h outcome
    unfold getSuggestions
    rw [if_pos h]
  · intro h outcome
    have hn : ¬ partialInput.length < 3 := by omega
    constructor
    · intro e he
      unfold getSuggestions
      rw [if_neg hn, he]
    · intro results hr
      unfold getSuggestions
      rw [if_neg hn, hr]

/-- Witness for `getSuggestions_spec`: a 2-character input yields `[]` even
when the transport would throw. -/
theorem getSuggestions_spec_witness : getSuggestions "ab" FetchOutcome.exn = [] :=
  (getSuggestions_spec "ab").1 (by decide) FetchOutcome.exn

/-- An input that `validateLocationInput` declares valid is nonempty and
has trimmed length at least 2. -/
theorem validate_valid_facts (input : String)
    (h : (validateLocationInput input).isValid = true) :
    ¬ input = "" ∧ 2 ≤ (jsTrim input).length := by
  simp only [validateLocationInput] at h
  split_ifs at h with h0 h1 h2 h3
  exact ⟨h0, by omega⟩

/-- C10: for every input that `validateLocationInput` declares valid,
`geocodeLocation` never fails with `INVALID_INPUT`, whatever the transport
outcome — validate-then-search never takes the invalid-input branch. -/
theorem validate_valid_no_invalid_input (input : String)
    (h : (validateLocationInput input).isValid = true) (outcome : FetchOutcome)
    (e : GeocodingError) (he : geocodeLocation input outcome = .error e) :
    e.code ≠ ErrorCode.INVALID_INPUT := by
  obtain ⟨h0, h2⟩ := validate_valid_facts input h
  have hg : ¬ (input = "" ∨ (jsTrim input).length < 2) := by
    rintro (hh | hh)
    · exact h0 hh
    · omega
  unfold geocodeLocation at he
  rw [if_neg hg] at he
  split at he
  · cases he
    decide
  · split at he
    · split at he
      · cases he
        simp
      · split at he
        · cases he
          simp
        · simp at he
    · split at he
      · cases he
        decide
      · split at he
        · cases he
          decide
        · cases he
          decide

/-- Witness for `validate_valid_no_invalid_input`: the valid query "ab"
with a throwing transport yields a non-`INVALID_INPUT` error. -/
theorem validate_valid_no_invalid_input_witness :
    (⟨"Network error. Please check your connection and try again.",
        ErrorCode.NETWORK_ERROR⟩ : GeocodingError).code ≠ ErrorCode.INVALID_INPUT :=
  validate_valid_no_invalid_input "ab" (by decide) FetchOutcome.exn _ (by decide)

/-- C7 (amended): `validateLocationInput` returns invalid exactly when the
input is empty, or its trimmed length is < 2, or its trimmed length is
greater than 100, or its trimmed form matches one of the dangerous
patterns case-insensitively; otherwise it returns valid. -/
theorem validate_invalid_iff (input : String) :
    (validateLocationInput input).isValid = false ↔
      (input = "" ∨ (jsTrim input).length < 2 ∨ 100 < (jsTrim input).length ∨
        dangerousInput (jsTrim input) = true) := by
  simp only [validateLocationInput]
  split_ifs with h0 h1 h2 h3 <;> simp_all

/-- C7 is refuted as stated: the over-100 length test is applied to the
trimmed input, not the raw input.  A 101-character input that trims to the
valid query "aa" is declared valid, although its raw length exceeds 100. -/
theorem validate_untrimmed_length_refuted :
    ¬ (∀ input : String, (validateLocationInput input).isValid = false ↔
        (input = "" ∨ (jsTrim input).length < 2 ∨ 100 < input.length ∨
          dangerousInput (jsTrim input) = true)) := by
  intro h
  have h2 := (h paddedInput).2 (Or.inr (Or.inr (Or.inl (by decide))))
  exact absurd h2 (by decide)

/-- C6 is refuted as stated: the region segment of `formatted_address` is
omitted not only when the region is absent but also when it is present and
empty (JavaScript truthiness), as on `emptyRegionRecord`. -/
theorem formatted_address_presence_refuted :
    ¬ (∀ r : RawRecord, (mapRecord r).formatted_address =
        r.name ++ ", " ++
          (match r.region with
            | none => ""
            | some reg => reg ++ ", ") ++ r.country) := by
  intro h
  exact absurd (h emptyRegionRecord) (by decide)

/-- C6 (amended): a successful search maps each upstream record to a Place
whose identifier is the concatenation of the raw latitude and longitude
separated by "-", and whose formatted string is the name, then — only when
the raw region value is truthy (present and nonempty) — the region and a
comma-space, then the country. -/
theorem geocode_success_mapping (input : String) (status : Nat) (records : List RawRecord)
    (hlen : 2 ≤ (jsTrim input).length) (hok : respOk status = true) (hne : records ≠ []) :
    geocodeLocation input (.resp status (.arr records)) = .ok (records.map mapRecord) ∧
    ∀ r : RawRecord,
      (mapRecord r).id = r.lat ++ "-" ++ r.lon ∧
      (mapRecord r).formatted_address =
        r.name ++ ", " ++
          (if truthyStr r.region then r.region.getD "" ++ ", " else "") ++ r.country := by
  constructor
  · have hg := geocode_guard_neg input hlen
    unfold geocodeLocation
    rw [if_neg hg]
    show (if respOk status = true then _ else _) = _
    rw [if_pos hok]
    show (if records = [] then _ else _) = _
    rw [if_neg hne]
  · intro r
    exact ⟨rfl, rfl⟩

/-- Witness for `geocode_success_mapping` at a concrete one-record
response. -/
theorem geocode_success_mapping_witness :
    geocodeLocation "Paris" (.resp 200 (.arr [emptyRegionRecord])) =
      .ok [mapRecord emptyRegionRecord] :=
  (geocode_success_mapping "Paris" 200 [emptyRegionRecord] (by decide) (by decide)
    (by decide)).1

/-- C2 is refuted as stated: toggling an initially saved place twice does
not restore the original order.  Toggling `locA` twice on `[locA, locB]`
yields `[locB, locA]`, because removal filters the entry out and re-adding
appends it at the end. -/
theorem toggle_twice_order_refuted :
    ¬ (∀ (location : Location) (saved : List Location),
        toggleSavedLocation location (toggleSavedLocation location saved) = saved) := by
  intro h
  exact absurd (h locA [locA, locB]) (by decide)

/-- C2 (amended): toggling twice restores the saved list exactly when the
place was not initially saved; when it was initially saved, toggling twice
yields the list with every entry bearing the toggled identifier removed
and the toggled place appended at the end (same membership by identifier
when the identifier occurred once, but not necessarily the original
order). -/
theorem toggle_twice_spec (location : Location) (saved : List Location) :
    (saved.any (fun s => s.id == location.id) = false →
        toggleSavedLocation location (toggleSavedLocation location saved) = saved) ∧
    (saved.any (fun s => s.id == location.id) = true →
        toggleSavedLocation location (toggleSavedLocation location saved) =
          saved.filter (fun s => s.id != location.id) ++ [location]) := by
  constructor
  · intro h
    have hmem : ∀ s ∈ saved, (s.id == location.id) = false := by
      intro s hs
      by_contra hc
      rw [Bool.not_eq_false] at hc
      have : saved.any (fun s => s.id == location.id) = true :=
        List.any_eq_true.mpr ⟨s, hs, hc⟩
      rw [this] at h
      cases h
    unfold toggleSavedLocation
    rw [h]
    simp only [Bool.false_eq_true, if_false]
    have hany2 : ((saved ++ [location]).any fun s => s.id == location.id) = true := by
      rw [List.any_append]
      simp
    rw [hany2, if_pos rfl]
    rw [List.filter_append]
    have h1 : ([location].filter fun s => s.id != location.id) = [] := by
      simp [bne]
    have h2 : (saved.filter fun s => s.id != location.id) = saved := by
      apply List.filter_eq_self.mpr
      intro a ha
      simp [bne, hmem a ha]
    rw [h1, h2, List.append_nil]
  · intro h
    unfold toggleSavedLocation
    rw [h, if_pos rfl]
    have hany2 : ((saved.filter fun s => s.id != location.id).any
        fun s => s.id == location.id) = false := by
      by_contra hc
      rw [Bool.not_eq_false, List.any_eq_true] at hc
      obtain ⟨s, hs, hbeq⟩ := hc
      have := (List.mem_filter.mp hs).2
      simp [bne, hbeq] at this
    rw [hany2]
    simp only [Bool.false_eq_true, if_false]

/-- Witness for `toggle_twice_spec`: toggling a place that is not in the
saved list twice restores the list. -/
theorem toggle_twice_spec_witness :
    toggleSavedLocation locB (toggleSavedLocation locB [locA]) = [locA] :=
  (toggle_twice_spec locB [locA]).1 (by decide)

/-- C8: `manualSearch` validates synchronously; on invalid input it
records an `INVALID_INPUT` failure in the error slot and signals it to the
caller without consulting the transport (the result is the same for every
outcome); on valid input it calls `geocodeLocation` (the search entry
point, not `getSuggestions`) directly, truncates successes to
`maxResults`, and records and re-signals every failure. -/
theorem manualSearch_spec (cfg : SearchConfig) (query : String) (outcome : FetchOutcome)
    (st : HookState) :
    ((validateLocationInput query).isValid = false →
        (∀ outcome2 : FetchOutcome,
            manualSearch cfg query outcome2 st = manualSearch cfg query outcome st) ∧
        ∃ e : GeocodingError, e.code = ErrorCode.INVALID_INPUT ∧
          (manualSearch cfg query outcome st).2 = .error e ∧
          (manualSearch cfg query outcome st).1.searchError = some e) ∧
    ((validateLocationInput query).isValid = true →
        (∀ results, geocodeLocation query outcome = .ok results →
            (manualSearch cfg query outcome st).2 = .ok (results.take cfg.maxResults) ∧
            (manualSearch cfg query outcome st).1.searchError = none) ∧
        (∀ e, geocodeLocation query outcome = .error e →
            (manualSearch cfg query outcome st).2 = .error e ∧
            (manualSearch cfg query outcome st).1.searchError = some e)) := by
  constructor
  · intro hv
    constructor
    · intro outcome2
      simp only [manualSearch, hv]
      rfl
    · refine ⟨⟨(validateLocationInput query).error.getD "Invalid input",
        ErrorCode.INVALID_INPUT⟩, rfl, ?_, ?_⟩
      · simp only [manualSearch, hv, if_pos]
      · simp only [manualSearch, hv, if_pos]
  · intro hv
    have hv' : ¬ (validateLocationInput query).isValid = false := by
      rw [hv]
      decide
    constructor
    · intro results hr
      simp only [manualSearch, if_neg hv', hr]
      exact ⟨trivial, trivial⟩
    · intro e he
      simp only [manualSearch, if_neg hv', he]
      exact ⟨trivial, trivial⟩

/-- Witness for `manualSearch_spec`: the empty query is rejected without
consulting the transport, recording and signalling an `INVALID_INPUT`
failure. -/
theorem manualSearch_spec_witness :
    ∃ e : GeocodingError, e.code = ErrorCode.INVALID_INPUT ∧
      (manualSearch defaultConfig "" FetchOutcome.exn initState).2 = .error e ∧
      (manualSearch defaultConfig "" FetchOutcome.exn initState).1.searchError = some e :=
  ((manualSearch_spec defaultConfig "" FetchOutcome.exn initState).1 (by decide)).2

/-- C1 is refuted as stated: the short-query branch of
`handleSetSearchQuery` does not cancel a pending debounced lookup.  After
typing "abc" (which schedules a timer) and then "ab" (below the minimum),
the timer scheduled for "abc" is still live and will later commit the
stale query. -/
theorem setSearchQuery_short_cancel_refuted :
    ¬ (∀ (st : HookState) (now : Nat) (query : String),
        query.length < defaultConfig.minSearchLength →
        (handleSetSearchQuery defaultConfig now query st).liveTimers = []) := by
  intro h
  have h2 := h (handleSetSearchQuery defaultConfig 0 "abc" initState) 50 "ab" (by decide)
  exact absurd h2 (by decide)

/-- C1 (amended): `handleSetSearchQuery` stores the raw text immediately
and clears any prior failure; when the length reaches the minimum it
(re)schedules a debounced lookup, cancelling the previously scheduled one
(the `debounceRef` timer); when the length is below the minimum it clears
the debounced query immediately but leaves any previously scheduled
lookup timer running (it is not cancelled). -/
theorem setSearchQuery_spec (cfg : SearchConfig) (now : Nat) (query : String)
    (st : HookState) :
    (handleSetSearchQuery cfg now query st).searchQuery = query ∧
    (handleSetSearchQuery cfg now query st).searchError = none ∧
    (cfg.minSearchLength ≤ query.length →
        (handleSetSearchQuery cfg now query st).liveTimers =
          (clearRefTimer st).liveTimers ++ [⟨st.nextId, now + cfg.debounceMs, query⟩] ∧
        (handleSetSearchQuery cfg now query st).debounceRef = some st.nextId ∧
        (handleSetSearchQuery cfg now query st).debouncedQuery = st.debouncedQuery) ∧
    (query.length < cfg.minSearchLength →
        (handleSetSearchQuery cfg now query st).debouncedQuery = "" ∧
        (handleSetSearchQuery cfg now query st).liveTimers = st.liveTimers ∧
        (handleSetSearchQuery cfg now query st).debounceRef = st.debounceRef) := by
  by_cases hq : cfg.minSearchLength ≤ query.length
  · refine ⟨?_, ?_, fun _ => ⟨?_, ?_, ?_⟩, fun hlt => absurd hq (by omega)⟩ <;>
      cases hdr : st.debounceRef <;>
      simp [handleSetSearchQuery, updateDebouncedQuery, clearRefTimer, hq, hdr]
  · have hlt : query.length < cfg.minSearchLength := by omega
    refine ⟨?_, ?_, fun hge => absurd hge hq, fun _ => ⟨?_, ?_, ?_⟩⟩ <;>
      simp [handleSetSearchQuery, hq]

/-- Witness for `setSearchQuery_spec`: a long-enough query schedules a
fresh timer from the initial state. -/
theorem setSearchQuery_spec_witness :
    (handleSetSearchQuery defaultConfig 0 "abc" initState).liveTimers =
      (clearRefTimer initState).liveTimers ++ [⟨0, 0 + 300, "abc"⟩] :=
  ((setSearchQuery_spec defaultConfig 0 "abc" initState).2.2.1 (by decide)).1

/-- `commitQuery` only touches the debounced query and the fired list. -/
theorem commitQuery_fst (cfg : SearchConfig) (q : String) (acc : HookState × List String) :
    (commitQuery cfg q acc).1.liveTimers = acc.1.liveTimers ∧
    (commitQuery cfg q acc).1.debounceRef = acc.1.debounceRef := by
  unfold commitQuery
  split_ifs <;> exact ⟨rfl, rfl⟩

/-- Folding `commitQuery` over a list of timers leaves the live-timer set
and the ref untouched. -/
theorem foldl_commit_liveTimers (cfg : SearchConfig) (l : List Timer) :
    ∀ acc : HookState × List String,
      ((l.foldl (fun a t => commitQuery cfg t.query a) acc).1.liveTimers =
        acc.1.liveTimers ∧
       (l.foldl (fun a t => commitQuery cfg t.query a) acc).1.debounceRef =
        acc.1.debounceRef) := by
  induction l with
  | nil => exact fun acc => ⟨rfl, rfl⟩
  | cons t rest ih =>
      intro acc
      have h := commitQuery_fst cfg t.query acc
      have h2 := ih (commitQuery cfg t.query acc)
      simp only [List.foldl_cons]
      exact ⟨h2.1.trans h.1, h2.2.trans h.2⟩

/-- `fireDue` keeps exactly the not-yet-due timers and leaves the ref
untouched. -/
theorem fireDue_fields (cfg : SearchConfig) (now : Nat) (acc : HookState × List String) :
    (fireDue cfg now acc).1.liveTimers =
      acc.1.liveTimers.filter (fun t => decide (now < t.expiry)) ∧
    (fireDue cfg now acc).1.debounceRef = acc.1.debounceRef := by
  have hfold := foldl_commit_liveTimers cfg
    (acc.1.liveTimers.filter (fun t => decide (t.expiry ≤ now)))
    ({ acc.1 with liveTimers := acc.1.liveTimers.filter (fun t => decide (now < t.expiry)) },
      acc.2)
  exact ⟨hfold.1, hfold.2⟩

/-- `fireDue` preserves the single-timer invariant. -/
theorem fireDue_timerInv (cfg : SearchConfig) (now : Nat) (acc : HookState × List String)
    (h : timerInv acc.1) : timerInv (fireDue cfg now acc).1 := by
  obtain ⟨hlt, href⟩ := fireDue_fields cfg now acc
  obtain hnil | ⟨t, h1, h2⟩ := h
  · left
    rw [hlt, hnil]
    rfl
  · by_cases hd : now < t.expiry
    · right
      refine ⟨t, ?_, ?_⟩
      · rw [hlt, h1]
        simp [hd]
      · rw [href, h2]
    · left
      rw [hlt, h1]
      simp [hd]

/-- Under the single-timer invariant, `clearTimeout(debounceRef.current)`
leaves no live timer. -/
theorem clearRef_liveTimers_nil (st : HookState) (h : timerInv st) :
    (clearRefTimer st).liveTimers = [] := by
  obtain ⟨sq, se, dq, lt, dr, ni⟩ := st
  obtain hnil | ⟨t, h1, h2⟩ := h
  · simp only at hnil
    subst hnil
    cases dr <;> rfl
  · simp only at h1 h2
    subst h1
    subst h2
    simp [clearRefTimer]

/-- `clearRefTimer` leaves every field except the live-timer set
untouched. -/
theorem clearRef_fields (st : HookState) :
    (clearRefTimer st).nextId = st.nextId ∧
    (clearRefTimer st).debouncedQuery = st.debouncedQuery ∧
    (clearRefTimer st).debounceRef = st.debounceRef := by
  obtain ⟨sq, se, dq, lt, dr, ni⟩ := st
  cases dr <;> exact ⟨rfl, rfl, rfl⟩

/-- `handleSetSearchQuery` preserves the single-timer invariant: the long
branch cancels the ref'd timer before scheduling the fresh one, and the
short branch schedules nothing. -/
theorem setSearchQuery_timerInv (cfg : SearchConfig) (now : Nat) (query : String)
    (st : HookState) (h : timerInv st) :
    timerInv (handleSetSearchQuery cfg now query st) := by
  unfold handleSetSearchQuery
  by_cases hq : cfg.minSearchLength ≤ query.length
  · rw [if_pos hq]
    have h1 : timerInv { st with searchQuery := query, searchError := none } := h
    have h2 := clearRef_liveTimers_nil _ h1
    right
    refine ⟨⟨(clearRefTimer { st with searchQuery := query, searchError := none }).nextId,
      now + cfg.debounceMs, query⟩, ?_, rfl⟩
    show (clearRefTimer _).liveTimers ++ [_] = _
    rw [h2]
    rfl
  · rw [if_neg hq]
    obtain hnil | ⟨t, h1, h2⟩ := h
    · left
      exact hnil
    · right
      exact ⟨t, h1, h2⟩

/-- One keystroke event preserves the single-timer invariant. -/
theorem stepEvent_timerInv (cfg : SearchConfig) (acc : HookState × List String)
    (e : Nat × String) (h : timerInv acc.1) : timerInv (stepEvent cfg acc e).1 := by
  exact setSearchQuery_timerInv cfg e.1 e.2 _ (fireDue_timerInv cfg e.1 acc h)

/-- Every reachable controller state satisfies the single-timer
invariant. -/
theorem runTrace_timerInv (cfg : SearchConfig) (events : List (Nat × String)) :
    timerInv (runTrace cfg events).1 := by
  unfold runTrace
  have : ∀ acc : HookState × List String, timerInv acc.1 →
      timerInv (events.foldl (stepEvent cfg) acc).1 := by
    induction events with
    | nil => exact fun acc h => h
    | cons e rest ih =>
        intro acc h
        simp only [List.foldl_cons]
        exact ih _ (stepEvent_timerInv cfg acc e h)
  exact this (initState, []) (Or.inl rfl)

/-- During a burst, no timer ever reaches its expiry before being
cancelled by the next keystroke: the state keeps exactly one scheduled
timer, carrying the text of the latest keystroke, and no lookup fires. -/
theorem runBurst (cfg : SearchConfig) (rest : List (Nat × String)) :
    ∀ (tPrev : Nat) (qPrev : String) (i : Nat) (st : HookState) (fired : List String),
      burstFrom cfg tPrev rest = true →
      cfg.minSearchLength ≤ qPrev.length →
      st.liveTimers = [⟨i, tPrev + cfg.debounceMs, qPrev⟩] →
      st.debounceRef = some i →
      st.nextId = i + 1 →
      (rest.foldl (stepEvent cfg) (st, fired)).2 = fired ∧
      (rest.foldl (stepEvent cfg) (st, fired)).1.debouncedQuery = st.debouncedQuery ∧
      cfg.minSearchLength ≤ (lastQuery qPrev rest).length ∧
      ∃ j tLast : Nat,
        (rest.foldl (stepEvent cfg) (st, fired)).1.liveTimers =
          [⟨j, tLast + cfg.debounceMs, lastQuery qPrev rest⟩] := by
  induction rest with
  | nil =>
      intro tPrev qPrev i st fired hb hq hlt hdr hni
      exact ⟨rfl, rfl, hq, i, tPrev, hlt⟩
  | cons e rest ih =>
      intro tPrev qPrev i st fired hb hq hlt hdr hni
      obtain ⟨t, q⟩ := e
      have hb' : ((tPrev < t ∧ t < tPrev + cfg.debounceMs) ∧
          cfg.minSearchLength ≤ q.length) ∧ burstFrom cfg t rest = true := by
        simpa [burstFrom, Bool.and_eq_true, decide_eq_true_eq] using hb
      obtain ⟨⟨⟨ht1, ht2⟩, hql⟩, hrest⟩ := hb'
      have hd1 : (decide (tPrev + cfg.debounceMs ≤ t)) = false := by
        simp only [decide_eq_false_iff_not]
        omega
      have hd2 : (decide (t < tPrev + cfg.debounceMs)) = true := by
        simp only [decide_eq_true_eq]
        omega
      have hstep : stepEvent cfg (st, fired) (t, q) =
          ({ searchQuery := q, searchError := none, debouncedQuery := st.debouncedQuery,
             liveTimers := [⟨i + 1, t + cfg.debounceMs, q⟩], debounceRef := some (i + 1),
             nextId := i + 2 }, fired) := by
        obtain ⟨sq, se, dq, lt, dr, ni⟩ := st
        simp only at hlt hdr hni
        subst hlt
        subst hdr
        subst hni
        simp [stepEvent, fireDue, handleSetSearchQuery, updateDebouncedQuery, clearRefTimer,
          hd1, hd2, hql]
      rw [List.foldl_cons, hstep]
      have hih := ih t q (i + 1)
        { searchQuery := q, searchError := none, debouncedQuery := st.debouncedQuery,
          liveTimers := [⟨i + 1, t + cfg.debounceMs, q⟩], debounceRef := some (i + 1),
          nextId := i + 2 } fired hrest hql rfl rfl rfl
      simpa [lastQuery] using hih

/-- C5: for every burst of raw-query updates spaced closer together than
the debounce delay (each long enough to schedule a lookup), exactly one
debounced lookup fires once the burst ends, and it uses only the latest
text; moreover at most one debounce timer is live per controller instance
at any reachable state, because scheduling a new one always cancels the
prior one. -/
theorem burst_single_lookup (cfg : SearchConfig) (hmin : 1 ≤ cfg.minSearchLength)
    (t0 : Nat) (q0 : String) (rest : List (Nat × String))
    (hq0 : cfg.minSearchLength ≤ q0.length)
    (hburst : burstFrom cfg t0 rest = true) :
    firedLookups cfg ((t0, q0) :: rest) = [lastQuery q0 rest] ∧
    ∀ events : List (Nat × String), (runTrace cfg events).1.liveTimers.length ≤ 1 := by
  constructor
  · unfold firedLookups runTrace
    rw [List.foldl_cons]
    have hstep0 : stepEvent cfg (initState, []) (t0, q0) =
        ({ searchQuery := q0, searchError := none, debouncedQuery := "",
           liveTimers := [⟨0, t0 + cfg.debounceMs, q0⟩], debounceRef := some 0,
           nextId := 1 }, []) := by
      simp [stepEvent, fireDue, initState, handleSetSearchQuery, updateDebouncedQuery,
        clearRefTimer, hq0]
    rw [hstep0]
    obtain ⟨hfired, hdq, hlast, j, tLast, hlt⟩ :=
      runBurst cfg rest t0 q0 0
        { searchQuery := q0, searchError := none, debouncedQuery := "",
          liveTimers := [⟨0, t0 + cfg.debounceMs, q0⟩], debounceRef := some 0, nextId := 1 }
        [] hburst hq0 rfl rfl rfl
    have hne : ¬ lastQuery q0 rest = "" := by
      intro heq
      rw [heq] at hlast
      simp at hlast
      omega
    unfold flushTimers
    rw [hlt]
    simp only [List.foldl_cons, List.foldl_nil]
    simp [commitQuery, hdq, hne, hlast, hfired]
  · intro events
    obtain hnil | ⟨t, h1, _⟩ := runTrace_timerInv cfg events
    · rw [hnil]
      simp
    · rw [h1]
      simp

/-- Witness for `burst_single_lookup`: with the default 300-unit debounce,
two keystrokes 50 units apart fire exactly one lookup, with the latest
text. -/
theorem burst_single_lookup_witness :
    firedLookups defaultConfig [(0, "abc"), (50, "abcd")] = ["abcd"] :=
  (burst_single_lookup defaultConfig (by decide) 0 "abc" [(50, "abcd")] (by decide)
    (by decide)).1
